import Mathlib

/-!
Shallow embedding of `memsql_top/DatabasePoller.py` (the sampling/diff engine
of the `memsql-top` dashboard tool) and proofs of the specified properties.

Modelling conventions:
* Python integers (the cumulative counters coming from the database, with SQL
  `IFNULL(..., 0)` already applied) are modelled as `Int`.
* Python `float` arithmetic (the rate/average computations, which divide small
  integers) is modelled exactly over `ℚ`.
* A Python `dict` is modelled as an insertion-ordered association list
  `List (Int × α)` with `dictLookup` / `dictSet`; snapshots produced by the
  fetcher always have duplicate-free keys (plan hashes are unique per
  snapshot), which appears as a `Nodup` hypothesis on theorems.
* A poll cycle's interaction with the outside world (the urwid event loop and
  the database connection) is modelled by an explicit list of `PollAction`s in
  emission order, plus an `Option QueryError` for an exception propagating out
  of `poll`.
-/

/-- One row of `distributed_plancache_summary` as returned by
`GET_PLANCACHE_QUERY`: identity fields plus the six cumulative counters
(`IFNULL` coercion to 0 and the `plan_hash is not null` filter already applied
by the SQL). -/
structure PlanCacheEntry where
  database_name : String
  query_text : String
  plan_hash : Int
  commits : Int
  rowcount : Int
  execution_time : Int
  queued_time : Int
  cpu_time : Int
  memory_use : Int
deriving DecidableEq

/-- The normalized per-interval metric record built by
`NormalizeDiffPlanCacheEntry` (the `AttrDict` with keys `Database`, `Query`,
`Executions/sec`, `RowCount/sec`, `CpuUtil`, `ExecutionTime/query`,
`Memory/query`, `QueuedTime/query`). -/
structure IntervalMetricRecord where
  Database : String
  Query : String
  ExecutionsPerSec : ℚ
  RowCountPerSec : ℚ
  CpuUtil : ℚ
  ExecutionTimePerQuery : ℚ
  MemoryPerQuery : ℚ
  QueuedTimePerQuery : ℚ
deriving DecidableEq

/-- Modelled from the spec: `CheckHasDataForAllColumns` lives in the module
`columns`, which is not part of the sources here. The spec describes the
normalize step as producing the metric record with exactly the listed fields,
so the check is modelled as a validation that returns its argument
unchanged. -/
def CheckHasDataForAllColumns (r : IntervalMetricRecord) : IntervalMetricRecord := r

/-- `NormalizeDiffPlanCacheEntry` from `DatabasePoller.py`: turns counter
deltas for one interval into per-second rates and per-query averages. -/
def NormalizeDiffPlanCacheEntry (interval : ℚ) (database_name query_text : String)
    (commits rowcount cpu_time execution_time memory_use queued_time : Int) :
    IntervalMetricRecord :=
  CheckHasDataForAllColumns
    { Database := database_name
      Query := query_text
      ExecutionsPerSec := (commits : ℚ) / interval
      RowCountPerSec := (rowcount : ℚ) / interval
      CpuUtil := (cpu_time : ℚ) / 1000 / interval
      ExecutionTimePerQuery := (execution_time : ℚ) / (commits : ℚ)
      MemoryPerQuery := (memory_use : ℚ) / (commits : ℚ)
      QueuedTimePerQuery := (queued_time : ℚ) / (commits : ℚ) }

/-- Lookup in an insertion-ordered dictionary (Python `d[k]` / `k in d`). -/
def dictLookup {α : Type} : List (Int × α) → Int → Option α
  | [], _ => none
  | (k, v) :: rest, key => if key = k then some v else dictLookup rest key

/-- The key list of a dictionary, in insertion order. -/
def dictKeys {α : Type} (d : List (Int × α)) : List Int :=
  d.map Prod.fst

/-- Assignment `d[key] = v` on an insertion-ordered dictionary: overwrite in
place if the key is present, append otherwise. -/
def dictSet {α : Type} (d : List (Int × α)) (key : Int) (v : α) : List (Int × α) :=
  if key ∈ dictKeys d then
    d.map (fun p => if p.1 = key then (key, v) else p)
  else
    d ++ [(key, v)]

/-- A plan-cache snapshot: the dictionary `plan_hash ↦ row` built by
`GetPlanCache`. -/
abbrev PlanCache := List (Int × PlanCacheEntry)

/-- The body of the loop of `DiffPlanCache`, factored as the record to be
inserted for one new-snapshot item, or `none` when the item is filtered out:
a key unknown in the old snapshot is included iff `commits > 0` with the raw
new counters as deltas; a known key is included iff
`new.commits - old.commits > 0` with `new - old` deltas (no floor at zero). -/
def diffRecord (old_plancache : PlanCache) (interval : ℚ) (key : Int)
    (n_ent : PlanCacheEntry) : Option IntervalMetricRecord :=
  match dictLookup old_plancache key with
  | none =>
      if n_ent.commits > 0 then
        some (NormalizeDiffPlanCacheEntry interval n_ent.database_name n_ent.query_text
          n_ent.commits n_ent.rowcount n_ent.cpu_time n_ent.execution_time
          n_ent.memory_use n_ent.queued_time)
      else
        none
  | some o_ent =>
      if n_ent.commits - o_ent.commits > 0 then
        some (NormalizeDiffPlanCacheEntry interval n_ent.database_name n_ent.query_text
          (n_ent.commits - o_ent.commits) (n_ent.rowcount - o_ent.rowcount)
          (n_ent.cpu_time - o_ent.cpu_time) (n_ent.execution_time - o_ent.execution_time)
          (n_ent.memory_use - o_ent.memory_use) (n_ent.queued_time - o_ent.queued_time))
      else
        none

/-- One iteration of the loop of `DiffPlanCache`: perform the (possibly
absent) assignment `diff_plancache[key] = NormalizeDiffPlanCacheEntry(...)`. -/
def diffFold (old_plancache : PlanCache) (interval : ℚ)
    (diff_plancache : List (Int × IntervalMetricRecord)) (kv : Int × PlanCacheEntry) :
    List (Int × IntervalMetricRecord) :=
  match diffRecord old_plancache interval kv.1 kv.2 with
  | some r => dictSet diff_plancache kv.1 r
  | none => diff_plancache

/-- `DiffPlanCache` from `DatabasePoller.py`: iterate over the new snapshot's
items in order, building the dictionary of included normalized records. -/
def DiffPlanCache (new_plancache old_plancache : PlanCache) (interval : ℚ) :
    List (Int × IntervalMetricRecord) :=
  new_plancache.foldl (diffFold old_plancache interval) []

/-- The delta the spec attributes to a counter of an included entry: `new − old`
when the key is known in the old snapshot, the raw new counter otherwise. -/
def specDelta (f : PlanCacheEntry → Int) (old_plancache : PlanCache) (key : Int)
    (n_ent : PlanCacheEntry) : ℚ :=
  match dictLookup old_plancache key with
  | none => (f n_ent : ℚ)
  | some o_ent => ((f n_ent - f o_ent : Int) : ℚ)

/-- The text of the plan-cache query issued by `GetPlanCache` (used by the
fetcher to filter itself out of its own results). -/
def GET_PLANCACHE_QUERY : String :=
  "select database_name, query_text, plan_hash, " ++
  "IFNULL(commits, 0) as commits, " ++
  "IFNULL(rowcount, 0) as rowcount, " ++
  "IFNULL(execution_time, 0) as execution_time, " ++
  "IFNULL(queued_time, 0) as queued_time, " ++
  "IFNULL(cpu_time, 0) as cpu_time, " ++
  "IFNULL(memory_use, 0) as memory_use " ++
  "from distributed_plancache_summary " ++
  "where plan_hash is not null"

/-- `GetPlanCache` applied to the rows returned by the connection for
`GET_PLANCACHE_QUERY`: the dict comprehension keyed by `plan_hash`, dropping
rows whose query text is the monitoring query itself. -/
def GetPlanCache (rows : List PlanCacheEntry) : PlanCache :=
  (rows.filter (fun r => r.query_text != GET_PLANCACHE_QUERY)).foldl
    (fun d r => dictSet d r.plan_hash r) []

/-- An error raised by the database connection (`conn.query` / `conn.get`). -/
structure QueryError where
  msg : String
deriving DecidableEq

/-- The behaviour of `self.conn` during one poll cycle: the outcome of the
`conn.query(GET_PLANCACHE_QUERY)` call, and the outcome of the
`Total_server_memory` status sampling step. The latter folds
`conn.get("show status like 'Total_server_memory'")` together with the parse
`float(tsm_row.Value.split(" ")[0])` into one fallible step yielding the
sampled scalar, since no claim depends on the textual parse itself. -/
structure Conn where
  plancache_rows : Except QueryError (List PlanCacheEntry)
  total_server_memory : Except QueryError ℚ

/-- The mutable state of a `DatabasePoller` between cycles. -/
structure DatabasePollerState where
  update_interval : ℚ
  plancache : PlanCache
deriving DecidableEq

/-- An externally visible action of one `poll` call, in program order:
re-arming the timer via `loop.set_alarm_in`, and the three urwid signal
emissions. -/
inductive PollAction where
  | setAlarmIn (interval : ℚ)
  | plancacheChanged (diff : List (Int × IntervalMetricRecord))
  | cpuUtilChanged (total : ℚ)
  | memUsageChanged (value : ℚ)
deriving DecidableEq

/-- The result of one `poll` call: the poller state afterwards, the actions
performed in order, and the exception (if any) propagating out of `poll` to
the event loop. -/
structure PollOutcome where
  state : DatabasePollerState
  actions : List PollAction
  raised : Option QueryError
deriving DecidableEq

/-- `DatabasePoller.poll`: re-arm the timer first, fetch the new snapshot
(aborting on `QueryError` with the retained snapshot unchanged), diff against
the retained snapshot, emit `plancache_changed`, replace the retained
snapshot, emit `cpu_util_changed` with the summed `CpuUtil`, then sample and
emit `mem_usage_changed` (aborting there on failure of that step). -/
def poll (st : DatabasePollerState) (conn : Conn) : PollOutcome :=
  let acts := [PollAction.setAlarmIn st.update_interval]
  match conn.plancache_rows with
  | .error e => { state := st, actions := acts, raised := some e }
  | .ok rows =>
    let new_plancache := GetPlanCache rows
    let diff_plancache := DiffPlanCache new_plancache st.plancache st.update_interval
    let acts := acts ++ [PollAction.plancacheChanged diff_plancache]
    let st := { st with plancache := new_plancache }
    let sum_cpu_util := (diff_plancache.map (fun pe => pe.2.CpuUtil)).sum
    let acts := acts ++ [PollAction.cpuUtilChanged sum_cpu_util]
    match conn.total_server_memory with
    | .error e => { state := st, actions := acts, raised := some e }
    | .ok v =>
        { state := st, actions := acts ++ [PollAction.memUsageChanged v], raised := none }

/-- The payload of a `cpu_util_changed` emission, `none` for other actions. -/
def cpuUtilPayload : PollAction → Option ℚ
  | .cpuUtilChanged v => some v
  | _ => none

/-- The payload of a `mem_usage_changed` emission, `none` for other actions. -/
def memUsagePayload : PollAction → Option ℚ
  | .memUsageChanged v => some v
  | _ => none

/-- Whether an action is one of the three signal emissions. -/
def isEmission : PollAction → Bool
  | .setAlarmIn _ => false
  | _ => true

/-- Whether an action schedules the next poll tick. -/
def isSchedule : PollAction → Bool
  | .setAlarmIn _ => true
  | _ => false

/-- The ordering property claimed for scheduling: every scheduling action in
the trace comes strictly after every emission action. -/
def ScheduledAfterEmissions (acts : List PollAction) : Prop :=
  ∀ i j : Fin acts.length, isSchedule (acts.get i) = true →
    isEmission (acts.get j) = true → (j : ℕ) < (i : ℕ)

instance (acts : List PollAction) : Decidable (ScheduledAfterEmissions acts) := by
  unfold ScheduledAfterEmissions
  infer_instance

lemma mem_dictKeys {α : Type} {d : List (Int × α)} {key : Int} :
    key ∈ dictKeys d ↔ ∃ v, (key, v) ∈ d := by
  constructor
  · intro h
    rcases List.mem_map.mp h with ⟨⟨k, v⟩, hm, hk⟩
    exact ⟨v, by simpa [← hk] using hm⟩
  · rintro ⟨v, hm⟩
    exact List.mem_map.mpr ⟨(key, v), hm, rfl⟩

lemma dictLookup_eq_none {α : Type} {d : List (Int × α)} {key : Int} :
    dictLookup d key = none ↔ key ∉ dictKeys d := by
  induction d with
  | nil => simp [dictLookup, dictKeys]
  | cons p rest ih =>
    obtain ⟨k, v⟩ := p
    have hkeys : dictKeys ((k, v) :: rest) = k :: dictKeys rest := rfl
    by_cases hk : key = k
    · subst hk
      simp [dictLookup, hkeys]
    · simp [dictLookup, hk, hkeys, ih, Ne.symm hk]

lemma dictLookup_mem {α : Type} {d : List (Int × α)} {key : Int} {v : α}
    (h : dictLookup d key = some v) : (key, v) ∈ d := by
  induction d with
  | nil => simp [dictLookup] at h
  | cons p rest ih =>
    obtain ⟨k, w⟩ := p
    by_cases hk : key = k
    · subst hk
      simp [dictLookup] at h
      simp [h]
    · simp only [dictLookup, if_neg hk] at h
      exact List.mem_cons_of_mem _ (ih h)

lemma dictLookup_of_mem_of_nodup {α : Type} {d : List (Int × α)} {key : Int} {v : α}
    (hnd : (dictKeys d).Nodup) (h : (key, v) ∈ d) : dictLookup d key = some v := by
  induction d with
  | nil => simp at h
  | cons p rest ih =>
    obtain ⟨k, w⟩ := p
    have hkeys : dictKeys ((k, w) :: rest) = k :: dictKeys rest := rfl
    rw [hkeys] at hnd
    have hnd' := List.nodup_cons.mp hnd
    rcases List.mem_cons.mp h with h1 | h2
    · obtain ⟨rfl, rfl⟩ := Prod.mk.injEq .. ▸ h1
      simp [dictLookup]
    · have hk : key ≠ k := by
        rintro rfl
        exact hnd'.1 (mem_dictKeys.mpr ⟨v, h2⟩)
      simp [dictLookup, hk, ih hnd'.2 h2]

lemma dictSet_of_not_mem {α : Type} {d : List (Int × α)} {key : Int} (v : α)
    (h : key ∉ dictKeys d) : dictSet d key v = d ++ [(key, v)] := by
  simp [dictSet, h]

lemma dictKeys_append {α : Type} (a b : List (Int × α)) :
    dictKeys (a ++ b) = dictKeys a ++ dictKeys b := by
  simp [dictKeys]

/-- The filtered record inserted by the `DiffPlanCache` loop for one item of
the new snapshot, key included. -/
def diffItem (old_plancache : PlanCache) (interval : ℚ) (kv : Int × PlanCacheEntry) :
    Option (Int × IntervalMetricRecord) :=
  (diffRecord old_plancache interval kv.1 kv.2).map (fun r => (kv.1, r))

lemma foldl_diffFold_eq (old : PlanCache) (i : ℚ) (l : List (Int × PlanCacheEntry)) :
    ∀ acc : List (Int × IntervalMetricRecord),
      (dictKeys l).Nodup → (∀ k, k ∈ dictKeys l → k ∉ dictKeys acc) →
      l.foldl (diffFold old i) acc = acc ++ l.filterMap (diffItem old i) := by
  induction l with
  | nil => intro acc _ _; simp
  | cons hd tl ih =>
    intro acc hnd hdis
    obtain ⟨k, n⟩ := hd
    have hkeys : dictKeys ((k, n) :: tl) = k :: dictKeys tl := rfl
    rw [hkeys] at hnd hdis
    have hnd' := List.nodup_cons.mp hnd
    have hka : k ∉ dictKeys acc := hdis k (List.mem_cons_self k _)
    rw [List.foldl_cons, List.filterMap_cons]
    cases hr : diffRecord old i k n with
    | none =>
      have hstep : diffFold old i acc (k, n) = acc := by simp [diffFold, hr]
      have hitem : diffItem old i (k, n) = none := by simp [diffItem, hr]
      rw [hstep, hitem]
      exact ih acc hnd'.2 (fun k' hk' => hdis k' (List.mem_cons_of_mem _ hk'))
    | some r =>
      have hstep : diffFold old i acc (k, n) = acc ++ [(k, r)] := by
        simp [diffFold, hr, dictSet_of_not_mem r hka]
      have hitem : diffItem old i (k, n) = some (k, r) := by simp [diffItem, hr]
      rw [hstep, hitem]
      have hdis' : ∀ k', k' ∈ dictKeys tl → k' ∉ dictKeys (acc ++ [(k, r)]) := by
        intro k' hk'
        rw [dictKeys_append]
        simp only [List.mem_append]
        rintro (h1 | h2)
        · exact hdis k' (List.mem_cons_of_mem _ hk') h1
        · have : k' = k := by simpa [dictKeys] using h2
          exact hnd'.1 (this ▸ hk')
      rw [ih (acc ++ [(k, r)]) hnd'.2 hdis']
      simp

lemma DiffPlanCache_eq_filterMap (new_plancache old_plancache : PlanCache) (i : ℚ)
    (hnd : (dictKeys new_plancache).Nodup) :
    DiffPlanCache new_plancache old_plancache i
      = new_plancache.filterMap (diffItem old_plancache i) := by
  simpa [DiffPlanCache] using
    foldl_diffFold_eq old_plancache i new_plancache [] hnd (by intro k _; simp [dictKeys])

lemma dictKeys_filterMap_subset (old : PlanCache) (i : ℚ) (l : List (Int × PlanCacheEntry))
    {key : Int} (h : key ∈ dictKeys (l.filterMap (diffItem old i))) : key ∈ dictKeys l := by
  obtain ⟨v, hv⟩ := mem_dictKeys.mp h
  obtain ⟨⟨k, n⟩, hmem, heq⟩ := List.mem_filterMap.mp hv
  cases hd : diffRecord old i k n with
  | none => rw [diffItem, hd] at heq; simp at heq
  | some r =>
    rw [diffItem, hd] at heq
    simp only [Option.map_some', Option.some.injEq, Prod.mk.injEq] at heq
    obtain ⟨rfl, -⟩ := heq
    exact mem_dictKeys.mpr ⟨n, hmem⟩

lemma dictLookup_filterMap_diff (old : PlanCache) (i : ℚ)
    (l : List (Int × PlanCacheEntry)) (hnd : (dictKeys l).Nodup) (key : Int) :
    dictLookup (l.filterMap (diffItem old i)) key
      = (dictLookup l key).bind (diffRecord old i key) := by
  induction l with
  | nil => simp [dictLookup]
  | cons hd tl ih =>
    obtain ⟨k, n⟩ := hd
    have hkeys : dictKeys ((k, n) :: tl) = k :: dictKeys tl := rfl
    rw [hkeys] at hnd
    have hnd' := List.nodup_cons.mp hnd
    cases hr : diffRecord old i k n with
    | none =>
      have hitem : diffItem old i (k, n) = none := by simp [diffItem, hr]
      rw [List.filterMap_cons, hitem]
      by_cases hk : key = k
      · subst hk
        have hnone : dictLookup (tl.filterMap (diffItem old i)) key = none :=
          dictLookup_eq_none.mpr (fun hmem => hnd'.1 (dictKeys_filterMap_subset old i tl hmem))
        simp [hnone, dictLookup, hr]
      · simp only [dictLookup, if_neg hk]
        exact ih hnd'.2
    | some r =>
      have hitem : diffItem old i (k, n) = some (k, r) := by simp [diffItem, hr]
      rw [List.filterMap_cons, hitem]
      by_cases hk : key = k
      · subst hk
        simp [dictLookup, hr]
      · simp only [dictLookup, if_neg hk]
        exact ih hnd'.2

lemma dictLookup_DiffPlanCache (new_plancache old_plancache : PlanCache) (i : ℚ)
    (hnd : (dictKeys new_plancache).Nodup) (key : Int) :
    dictLookup (DiffPlanCache new_plancache old_plancache i) key
      = (dictLookup new_plancache key).bind (diffRecord old_plancache i key) := by
  rw [DiffPlanCache_eq_filterMap new_plancache old_plancache i hnd]
  exact dictLookup_filterMap_diff old_plancache i new_plancache hnd key

lemma mem_DiffPlanCache (new_plancache old_plancache : PlanCache) (i : ℚ)
    (hnd : (dictKeys new_plancache).Nodup) {key : Int} {r : IntervalMetricRecord}
    (h : (key, r) ∈ DiffPlanCache new_plancache old_plancache i) :
    ∃ n, (key, n) ∈ new_plancache ∧ diffRecord old_plancache i key n = some r := by
  rw [DiffPlanCache_eq_filterMap new_plancache old_plancache i hnd] at h
  obtain ⟨⟨k, n⟩, hmem, heq⟩ := List.mem_filterMap.mp h
  cases hd : diffRecord old_plancache i k n with
  | none => rw [diffItem, hd] at heq; simp at heq
  | some r' =>
    rw [diffItem, hd] at heq
    simp only [Option.map_some', Option.some.injEq, Prod.mk.injEq] at heq
    obtain ⟨rfl, rfl⟩ := heq
    exact ⟨n, hmem, hd⟩


lemma diffRecord_of_lookup_none (old_plancache : PlanCache) (i : ℚ) (key : Int)
    (n : PlanCacheEntry) (ho : dictLookup old_plancache key = none) :
    diffRecord old_plancache i key n
      = if n.commits > 0 then
          some (NormalizeDiffPlanCacheEntry i n.database_name n.query_text
            n.commits n.rowcount n.cpu_time n.execution_time n.memory_use n.queued_time)
        else none := by
  unfold diffRecord
  rw [ho]

lemma diffRecord_of_lookup_some (old_plancache : PlanCache) (i : ℚ) (key : Int)
    (n o : PlanCacheEntry) (ho : dictLookup old_plancache key = some o) :
    diffRecord old_plancache i key n
      = if n.commits - o.commits > 0 then
          some (NormalizeDiffPlanCacheEntry i n.database_name n.query_text
            (n.commits - o.commits) (n.rowcount - o.rowcount) (n.cpu_time - o.cpu_time)
            (n.execution_time - o.execution_time) (n.memory_use - o.memory_use)
            (n.queued_time - o.queued_time))
        else none := by
  unfold diffRecord
  rw [ho]

lemma diffRecord_eq_some (old_plancache : PlanCache) (i : ℚ) (key : Int)
    (n : PlanCacheEntry) (r : IntervalMetricRecord)
    (h : diffRecord old_plancache i key n = some r) :
    (dictLookup old_plancache key = none ∧ n.commits > 0 ∧
      r = NormalizeDiffPlanCacheEntry i n.database_name n.query_text
            n.commits n.rowcount n.cpu_time n.execution_time n.memory_use n.queued_time) ∨
    (∃ o, dictLookup old_plancache key = some o ∧ n.commits - o.commits > 0 ∧
      r = NormalizeDiffPlanCacheEntry i n.database_name n.query_text
            (n.commits - o.commits) (n.rowcount - o.rowcount) (n.cpu_time - o.cpu_time)
            (n.execution_time - o.execution_time) (n.memory_use - o.memory_use)
            (n.queued_time - o.queued_time)) := by
  cases ho : dictLookup old_plancache key with
  | none =>
    left
    rw [diffRecord_of_lookup_none old_plancache i key n ho] at h
    by_cases hc : n.commits > 0
    · rw [if_pos hc] at h
      exact ⟨rfl, hc, (Option.some_inj.mp h).symm⟩
    · rw [if_neg hc] at h
      exact absurd h (by simp)
  | some o =>
    right
    rw [diffRecord_of_lookup_some old_plancache i key n o ho] at h
    by_cases hc : n.commits - o.commits > 0
    · rw [if_pos hc] at h
      exact ⟨o, rfl, hc, (Option.some_inj.mp h).symm⟩
    · rw [if_neg hc] at h
      exact absurd h (by simp)

/-- A sample plan-cache row used in concrete witnesses, with fields in the
order plan hash, commits, rowcount, execution time, queued time, cpu time,
memory use. -/
def mkEntry (h commits rowcount execution_time queued_time cpu_time memory_use : Int) :
    PlanCacheEntry :=
  { database_name := "db", query_text := "q", plan_hash := h, commits := commits,
    rowcount := rowcount, execution_time := execution_time, queued_time := queued_time,
    cpu_time := cpu_time, memory_use := memory_use }

/-- C1: for a plan identity present in both snapshots, if
`new.commits - old.commits ≤ 0` (unchanged plans and counter resets) then the
identity does not appear in the result of `DiffPlanCache`. -/
theorem diff_excludes_nonpositive_commit_delta
    (new_plancache old_plancache : PlanCache) (i : ℚ) (key : Int)
    (n_ent o_ent : PlanCacheEntry)
    (hnd : (dictKeys new_plancache).Nodup)
    (hn : dictLookup new_plancache key = some n_ent)
    (ho : dictLookup old_plancache key = some o_ent)
    (hc : n_ent.commits - o_ent.commits ≤ 0) :
    dictLookup (DiffPlanCache new_plancache old_plancache i) key = none := by
  rw [dictLookup_DiffPlanCache _ _ _ hnd, hn]
  show diffRecord old_plancache i key n_ent = none
  rw [diffRecord_of_lookup_some old_plancache i key n_ent o_ent ho, if_neg]
  omega

/-- C1 witness: a plan whose commit counter went from 7 down to 5 (a reset)
is dropped from the diff. -/
theorem diff_excludes_nonpositive_commit_delta_witness :
    (dictKeys [((1 : Int), mkEntry 1 5 50 0 0 0 0)]).Nodup ∧
    dictLookup [((1 : Int), mkEntry 1 5 50 0 0 0 0)] 1 = some (mkEntry 1 5 50 0 0 0 0) ∧
    dictLookup [((1 : Int), mkEntry 1 7 0 0 0 0 0)] 1 = some (mkEntry 1 7 0 0 0 0 0) ∧
    (mkEntry 1 5 50 0 0 0 0).commits - (mkEntry 1 7 0 0 0 0 0).commits ≤ 0 ∧
    dictLookup (DiffPlanCache [((1 : Int), mkEntry 1 5 50 0 0 0 0)]
      [((1 : Int), mkEntry 1 7 0 0 0 0 0)] 5) 1 = none :=
  ⟨by decide, by decide, by decide, by decide,
    diff_excludes_nonpositive_commit_delta
      [((1 : Int), mkEntry 1 5 50 0 0 0 0)] [((1 : Int), mkEntry 1 7 0 0 0 0 0)] 5 1
      (mkEntry 1 5 50 0 0 0 0) (mkEntry 1 7 0 0 0 0 0)
      (by decide) (by decide) (by decide) (by decide)⟩

/-- C2: a plan identity absent from the old snapshot is excluded from the diff
when its commit counter is zero, and included with the raw new counters as
deltas when its commit counter is positive. -/
theorem diff_new_key_zero_commit_filter
    (new_plancache old_plancache : PlanCache) (i : ℚ) (key : Int)
    (n_ent : PlanCacheEntry)
    (hnd : (dictKeys new_plancache).Nodup)
    (hn : dictLookup new_plancache key = some n_ent)
    (ho : dictLookup old_plancache key = none) :
    (n_ent.commits = 0 →
      dictLookup (DiffPlanCache new_plancache old_plancache i) key = none) ∧
    (n_ent.commits > 0 →
      dictLookup (DiffPlanCache new_plancache old_plancache i) key
        = some (NormalizeDiffPlanCacheEntry i n_ent.database_name n_ent.query_text
            n_ent.commits n_ent.rowcount n_ent.cpu_time n_ent.execution_time
            n_ent.memory_use n_ent.queued_time)) := by
  constructor
  · intro h0
    rw [dictLookup_DiffPlanCache _ _ _ hnd, hn]
    show diffRecord old_plancache i key n_ent = none
    rw [diffRecord_of_lookup_none old_plancache i key n_ent ho, if_neg]
    omega
  · intro hpos
    rw [dictLookup_DiffPlanCache _ _ _ hnd, hn]
    show diffRecord old_plancache i key n_ent = some _
    rw [diffRecord_of_lookup_none old_plancache i key n_ent ho, if_pos hpos]

/-- C2 witness: a fresh plan with zero commits is excluded; a fresh plan with
3 commits is included with its raw counters as deltas. -/
theorem diff_new_key_zero_commit_filter_witness :
    dictLookup (DiffPlanCache [((2 : Int), mkEntry 2 0 1 2 3 4 5)] [] 5) 2 = none ∧
    dictLookup (DiffPlanCache [((3 : Int), mkEntry 3 3 30 300 9 600 12)] [] 5) 3
      = some (NormalizeDiffPlanCacheEntry 5 "db" "q" 3 30 600 300 12 9) :=
  ⟨(diff_new_key_zero_commit_filter [((2 : Int), mkEntry 2 0 1 2 3 4 5)] [] 5 2
      (mkEntry 2 0 1 2 3 4 5) (by decide) (by decide) (by decide)).1 (by decide),
    (diff_new_key_zero_commit_filter [((3 : Int), mkEntry 3 3 30 300 9 600 12)] [] 5 3
      (mkEntry 3 3 30 300 9 600 12) (by decide) (by decide) (by decide)).2 (by decide)⟩

/-- C6: for a plan identity known in both snapshots with positive commit
delta, the entry is included with every non-commit delta computed as
`new − old` unchanged — no floor at zero, no clamping, no dropping. -/
theorem diff_negative_noncommit_delta_passthrough
    (new_plancache old_plancache : PlanCache) (i : ℚ) (key : Int)
    (n_ent o_ent : PlanCacheEntry)
    (hnd : (dictKeys new_plancache).Nodup)
    (hn : dictLookup new_plancache key = some n_ent)
    (ho : dictLookup old_plancache key = some o_ent)
    (hc : n_ent.commits - o_ent.commits > 0) :
    dictLookup (DiffPlanCache new_plancache old_plancache i) key
      = some (NormalizeDiffPlanCacheEntry i n_ent.database_name n_ent.query_text
          (n_ent.commits - o_ent.commits) (n_ent.rowcount - o_ent.rowcount)
          (n_ent.cpu_time - o_ent.cpu_time) (n_ent.execution_time - o_ent.execution_time)
          (n_ent.memory_use - o_ent.memory_use)
          (n_ent.queued_time - o_ent.queued_time)) := by
  rw [dictLookup_DiffPlanCache _ _ _ hnd, hn]
  show diffRecord old_plancache i key n_ent = some _
  rw [diffRecord_of_lookup_some old_plancache i key n_ent o_ent ho, if_pos hc]

/-- C6 witness: commits rise 5 → 10 while rowcount falls 90 → 40 (partial
reset); the entry stays in the diff and its `RowCount/sec` is the negative
value −50/5 = −10, carried through unchanged. -/
theorem diff_negative_noncommit_delta_passthrough_witness :
    dictLookup (DiffPlanCache [((4 : Int), mkEntry 4 10 40 0 0 0 0)]
        [((4 : Int), mkEntry 4 5 90 0 0 0 0)] 5) 4
      = some (NormalizeDiffPlanCacheEntry 5 "db" "q" 5 (-50) 0 0 0 0) ∧
    (NormalizeDiffPlanCacheEntry 5 "db" "q" 5 (-50) 0 0 0 0).RowCountPerSec < 0 :=
  ⟨diff_negative_noncommit_delta_passthrough
      [((4 : Int), mkEntry 4 10 40 0 0 0 0)] [((4 : Int), mkEntry 4 5 90 0 0 0 0)] 5 4
      (mkEntry 4 10 40 0 0 0 0) (mkEntry 4 5 90 0 0 0 0)
      (by decide) (by decide) (by decide) (by decide),
    by norm_num [NormalizeDiffPlanCacheEntry, CheckHasDataForAllColumns]⟩

/-- C10: diffing a snapshot against itself yields the empty result — every
key is present in the old snapshot with commit delta zero. -/
theorem diff_self_is_empty (s : PlanCache) (i : ℚ)
    (hnd : (dictKeys s).Nodup) (hi : 0 < i) :
    DiffPlanCache s s i = [] := by
  rw [DiffPlanCache_eq_filterMap s s i hnd]
  rw [List.filterMap_eq_nil_iff]
  intro kv hkv
  obtain ⟨k, n⟩ := kv
  have hl : dictLookup s k = some n := dictLookup_of_mem_of_nodup hnd hkv
  have : diffRecord s i k n = none := by
    rw [diffRecord_of_lookup_some s i k n n hl, if_neg]
    omega
  simp [diffItem, this]

/-- C10 witness: a two-entry snapshot diffed against itself is empty. -/
theorem diff_self_is_empty_witness :
    (dictKeys [((1 : Int), mkEntry 1 4 2 3 4 5 6),
      ((2 : Int), mkEntry 2 0 0 0 0 0 0)]).Nodup ∧
    (0 : ℚ) < 5 ∧
    DiffPlanCache [((1 : Int), mkEntry 1 4 2 3 4 5 6),
      ((2 : Int), mkEntry 2 0 0 0 0 0 0)]
      [((1 : Int), mkEntry 1 4 2 3 4 5 6), ((2 : Int), mkEntry 2 0 0 0 0 0 0)] 5 = [] :=
  ⟨by decide, by norm_num,
    diff_self_is_empty
      [((1 : Int), mkEntry 1 4 2 3 4 5 6), ((2 : Int), mkEntry 2 0 0 0 0 0 0)] 5
      (by decide) (by norm_num)⟩

/-- C3: every entry included in the diff has
`Executions/sec = Δcommits / interval`, `RowCount/sec = Δrowcount / interval`
and `CpuUtil = Δcpu_time / 1000 / interval`, where the delta is `new − old`
for keys known in the old snapshot and the raw new counter otherwise. -/
theorem diff_rate_fields_correct
    (new_plancache old_plancache : PlanCache) (i : ℚ) (key : Int)
    (r : IntervalMetricRecord)
    (hnd : (dictKeys new_plancache).Nodup)
    (h : (key, r) ∈ DiffPlanCache new_plancache old_plancache i) :
    ∃ n_ent, (key, n_ent) ∈ new_plancache ∧
      r.ExecutionsPerSec = specDelta PlanCacheEntry.commits old_plancache key n_ent / i ∧
      r.RowCountPerSec = specDelta PlanCacheEntry.rowcount old_plancache key n_ent / i ∧
      r.CpuUtil = specDelta PlanCacheEntry.cpu_time old_plancache key n_ent / 1000 / i := by
  obtain ⟨n, hmem, hd⟩ := mem_DiffPlanCache _ _ _ hnd h
  refine ⟨n, hmem, ?_⟩
  rcases diffRecord_eq_some _ _ _ _ _ hd with ⟨ho, -, rfl⟩ | ⟨o, ho, -, rfl⟩ <;>
    simp [NormalizeDiffPlanCacheEntry, CheckHasDataForAllColumns, specDelta, ho]

/-- C3 witness: a fresh plan with commits 3, rowcount 30, cpu time 600 over a
5 second interval satisfies the rate equations. -/
theorem diff_rate_fields_correct_witness :
    ∃ n_ent, ((3 : Int), n_ent) ∈ [((3 : Int), mkEntry 3 3 30 300 9 600 12)] ∧
      (NormalizeDiffPlanCacheEntry 5 "db" "q" 3 30 600 300 12 9).ExecutionsPerSec
        = specDelta PlanCacheEntry.commits [] 3 n_ent / 5 ∧
      (NormalizeDiffPlanCacheEntry 5 "db" "q" 3 30 600 300 12 9).RowCountPerSec
        = specDelta PlanCacheEntry.rowcount [] 3 n_ent / 5 ∧
      (NormalizeDiffPlanCacheEntry 5 "db" "q" 3 30 600 300 12 9).CpuUtil
        = specDelta PlanCacheEntry.cpu_time [] 3 n_ent / 1000 / 5 :=
  diff_rate_fields_correct [((3 : Int), mkEntry 3 3 30 300 9 600 12)] [] 5 3
    (NormalizeDiffPlanCacheEntry 5 "db" "q" 3 30 600 300 12 9)
    (by decide) (dictLookup_mem rfl)

/-- C4: every entry included in the diff has
`ExecutionTime/query = Δexecution_time / Δcommits`,
`Memory/query = Δmemory_use / Δcommits` and
`QueuedTime/query = Δqueued_time / Δcommits`, with the divisor `Δcommits`
strictly positive by the inclusion filters (and the interval divisor nonzero),
so no division by zero occurs in the diff/normalize computation. -/
theorem diff_per_query_fields_safe
    (new_plancache old_plancache : PlanCache) (i : ℚ) (key : Int)
    (r : IntervalMetricRecord)
    (hnd : (dictKeys new_plancache).Nodup) (hi : 0 < i)
    (h : (key, r) ∈ DiffPlanCache new_plancache old_plancache i) :
    ∃ n_ent, (key, n_ent) ∈ new_plancache ∧
      0 < specDelta PlanCacheEntry.commits old_plancache key n_ent ∧ i ≠ 0 ∧
      r.ExecutionTimePerQuery
        = specDelta PlanCacheEntry.execution_time old_plancache key n_ent
            / specDelta PlanCacheEntry.commits old_plancache key n_ent ∧
      r.MemoryPerQuery
        = specDelta PlanCacheEntry.memory_use old_plancache key n_ent
            / specDelta PlanCacheEntry.commits old_plancache key n_ent ∧
      r.QueuedTimePerQuery
        = specDelta PlanCacheEntry.queued_time old_plancache key n_ent
            / specDelta PlanCacheEntry.commits old_plancache key n_ent := by
  obtain ⟨n, hmem, hd⟩ := mem_DiffPlanCache _ _ _ hnd h
  refine ⟨n, hmem, ?_⟩
  rcases diffRecord_eq_some _ _ _ _ _ hd with ⟨ho, hc, rfl⟩ | ⟨o, ho, hc, rfl⟩
  · refine ⟨?_, hi.ne', ?_, ?_, ?_⟩ <;>
      simp [NormalizeDiffPlanCacheEntry, CheckHasDataForAllColumns, specDelta, ho]
    exact_mod_cast hc
  · refine ⟨?_, hi.ne', ?_, ?_, ?_⟩ <;>
      simp [NormalizeDiffPlanCacheEntry, CheckHasDataForAllColumns, specDelta, ho]
    omega

/-- C4 witness: for the same fresh plan, the per-query averages hold and the
commit-delta divisor is positive. -/
theorem diff_per_query_fields_safe_witness :
    ∃ n_ent, ((3 : Int), n_ent) ∈ [((3 : Int), mkEntry 3 3 30 300 9 600 12)] ∧
      0 < specDelta PlanCacheEntry.commits [] 3 n_ent ∧ (5 : ℚ) ≠ 0 ∧
      (NormalizeDiffPlanCacheEntry 5 "db" "q" 3 30 600 300 12 9).ExecutionTimePerQuery
        = specDelta PlanCacheEntry.execution_time [] 3 n_ent
            / specDelta PlanCacheEntry.commits [] 3 n_ent ∧
      (NormalizeDiffPlanCacheEntry 5 "db" "q" 3 30 600 300 12 9).MemoryPerQuery
        = specDelta PlanCacheEntry.memory_use [] 3 n_ent
            / specDelta PlanCacheEntry.commits [] 3 n_ent ∧
      (NormalizeDiffPlanCacheEntry 5 "db" "q" 3 30 600 300 12 9).QueuedTimePerQuery
        = specDelta PlanCacheEntry.queued_time [] 3 n_ent
            / specDelta PlanCacheEntry.commits [] 3 n_ent :=
  diff_per_query_fields_safe [((3 : Int), mkEntry 3 3 30 300 9 600 12)] [] 5 3
    (NormalizeDiffPlanCacheEntry 5 "db" "q" 3 30 600 300 12 9)
    (by decide) (by norm_num) (dictLookup_mem rfl)

/-- C5: on a poll cycle whose snapshot fetch succeeds, the value emitted as
`cpu_util_changed` is exactly the sum of the `CpuUtil` field over the records
of that cycle's diff result (and 0 when the diff is empty), emitted exactly
once. -/
theorem poll_cpu_util_aggregate (st : DatabasePollerState) (conn : Conn)
    (rows : List PlanCacheEntry) (h : conn.plancache_rows = Except.ok rows) :
    (poll st conn).actions.filterMap cpuUtilPayload
      = [((DiffPlanCache (GetPlanCache rows) st.plancache st.update_interval).map
          (fun pe => pe.2.CpuUtil)).sum] := by
  unfold poll
  rw [h]
  cases hm : conn.total_server_memory <;>
    simp [cpuUtilPayload, List.filterMap_cons]

/-- C5 witness: a successful cycle over one fresh plan emits the summed
`CpuUtil` of the single-record diff. -/
theorem poll_cpu_util_aggregate_witness :
    (poll { update_interval := 5, plancache := [] }
        { plancache_rows := Except.ok [mkEntry 3 3 30 300 9 600 12],
          total_server_memory := Except.ok 42 }).actions.filterMap cpuUtilPayload
      = [((DiffPlanCache (GetPlanCache [mkEntry 3 3 30 300 9 600 12]) [] 5).map
          (fun pe => pe.2.CpuUtil)).sum] :=
  poll_cpu_util_aggregate { update_interval := 5, plancache := [] }
    { plancache_rows := Except.ok [mkEntry 3 3 30 300 9 600 12],
      total_server_memory := Except.ok 42 }
    [mkEntry 3 3 30 300 9 600 12] rfl

/-- C7: when the snapshot fetch of a poll cycle fails with a `QueryError`,
the retained snapshot is unchanged and none of the three signals is emitted
in that cycle (the only action is re-arming the timer, and the error
propagates). -/
theorem poll_fetch_failure_no_emission (st : DatabasePollerState) (conn : Conn)
    (e : QueryError) (h : conn.plancache_rows = Except.error e) :
    (poll st conn).state = st ∧
    (poll st conn).actions = [PollAction.setAlarmIn st.update_interval] ∧
    (poll st conn).raised = some e := by
  unfold poll
  rw [h]
  exact ⟨rfl, rfl, rfl⟩

/-- C7 witness: a cycle whose fetch fails leaves the retained snapshot in
place and performs no emission. -/
theorem poll_fetch_failure_no_emission_witness :
    (poll { update_interval := 5, plancache := [((1 : Int), mkEntry 1 4 2 3 4 5 6)] }
        { plancache_rows := Except.error { msg := "connection refused" },
          total_server_memory := Except.ok 42 }).state
      = { update_interval := 5, plancache := [((1 : Int), mkEntry 1 4 2 3 4 5 6)] } ∧
    (poll { update_interval := 5, plancache := [((1 : Int), mkEntry 1 4 2 3 4 5 6)] }
        { plancache_rows := Except.error { msg := "connection refused" },
          total_server_memory := Except.ok 42 }).actions
      = [PollAction.setAlarmIn 5] ∧
    (poll { update_interval := 5, plancache := [((1 : Int), mkEntry 1 4 2 3 4 5 6)] }
        { plancache_rows := Except.error { msg := "connection refused" },
          total_server_memory := Except.ok 42 }).raised
      = some { msg := "connection refused" } :=
  poll_fetch_failure_no_emission
    { update_interval := 5, plancache := [((1 : Int), mkEntry 1 4 2 3 4 5 6)] }
    { plancache_rows := Except.error { msg := "connection refused" },
      total_server_memory := Except.ok 42 }
    { msg := "connection refused" } rfl

/-- C8 counterexample: the claim that a failure of the plan-cache fetch does
not prevent `mem_usage_changed` from being emitted is false — with a failing
plan-cache fetch and a memory sampling step that would succeed with value 42,
the cycle emits no `mem_usage_changed` at all. -/
theorem poll_plancache_failure_blocks_memory :
    ({ plancache_rows := Except.error { msg := "connection refused" },
       total_server_memory := Except.ok 42 } : Conn).plancache_rows
      = Except.error { msg := "connection refused" } ∧
    ({ plancache_rows := Except.error { msg := "connection refused" },
       total_server_memory := Except.ok 42 } : Conn).total_server_memory
      = Except.ok 42 ∧
    (poll { update_interval := 5, plancache := [] }
        { plancache_rows := Except.error { msg := "connection refused" },
          total_server_memory := Except.ok 42 }).actions.filterMap memUsagePayload
      = [] ∧
    ¬ (∃ v, PollAction.memUsageChanged v
        ∈ (poll { update_interval := 5, plancache := [] }
            { plancache_rows := Except.error { msg := "connection refused" },
              total_server_memory := Except.ok 42 }).actions) := by
  refine ⟨rfl, rfl, rfl, ?_⟩
  rintro ⟨v, hv⟩
  simp [poll] at hv

/-- C8 (amended): a failure of the memory-status sampling step does not
prevent `plancache_changed` and `cpu_util_changed` from being emitted in that
cycle; in the converse direction, a failure of the plan-cache fetch aborts the
cycle before the memory step, so `mem_usage_changed` is not emitted. -/
theorem poll_emission_independence_amended (st : DatabasePollerState) (conn : Conn) :
    (∀ rows e, conn.plancache_rows = Except.ok rows →
      conn.total_server_memory = Except.error e →
      PollAction.plancacheChanged
          (DiffPlanCache (GetPlanCache rows) st.plancache st.update_interval)
        ∈ (poll st conn).actions ∧
      PollAction.cpuUtilChanged
          (((DiffPlanCache (GetPlanCache rows) st.plancache st.update_interval).map
            (fun pe => pe.2.CpuUtil)).sum)
        ∈ (poll st conn).actions) ∧
    (∀ e, conn.plancache_rows = Except.error e →
      (poll st conn).actions.filterMap memUsagePayload = []) := by
  constructor
  · intro rows e hp hm
    unfold poll
    rw [hp, hm]
    simp
  · intro e hp
    unfold poll
    rw [hp]
    rfl

/-- C8 witness: with a failing memory step both plan-cache signals are still
emitted, and with a failing plan-cache fetch no `mem_usage_changed` is
emitted. -/
theorem poll_emission_independence_amended_witness :
    (PollAction.plancacheChanged
        (DiffPlanCache (GetPlanCache [mkEntry 3 3 30 300 9 600 12]) [] 5)
      ∈ (poll { update_interval := 5, plancache := [] }
          { plancache_rows := Except.ok [mkEntry 3 3 30 300 9 600 12],
            total_server_memory := Except.error { msg := "bad row" } }).actions ∧
      PollAction.cpuUtilChanged
        (((DiffPlanCache (GetPlanCache [mkEntry 3 3 30 300 9 600 12]) [] 5).map
          (fun pe => pe.2.CpuUtil)).sum)
      ∈ (poll { update_interval := 5, plancache := [] }
          { plancache_rows := Except.ok [mkEntry 3 3 30 300 9 600 12],
            total_server_memory := Except.error { msg := "bad row" } }).actions) ∧
    (poll { update_interval := 5, plancache := [] }
        { plancache_rows := Except.error { msg := "connection refused" },
          total_server_memory := Except.ok 42 }).actions.filterMap memUsagePayload
      = [] :=
  ⟨(poll_emission_independence_amended { update_interval := 5, plancache := [] }
      { plancache_rows := Except.ok [mkEntry 3 3 30 300 9 600 12],
        total_server_memory := Except.error { msg := "bad row" } }).1
      [mkEntry 3 3 30 300 9 600 12] { msg := "bad row" } rfl rfl,
    (poll_emission_independence_amended { update_interval := 5, plancache := [] }
      { plancache_rows := Except.error { msg := "connection refused" },
        total_server_memory := Except.ok 42 }).2
      { msg := "connection refused" } rfl⟩

/-- C9 counterexample: the claim that the next tick is scheduled only after
the current cycle's emission completes is false — on a successful concrete
cycle the schedule action (index 0) precedes every emission. -/
theorem poll_schedule_precedes_emission :
    ¬ ScheduledAfterEmissions
        (poll { update_interval := 5, plancache := [] }
          { plancache_rows := Except.ok [mkEntry 3 3 30 300 9 600 12],
            total_server_memory := Except.ok 42 }).actions := by
  decide

/-- C9 (amended): the next poll tick is scheduled as the first action of every
cycle — the `set_alarm_in` call precedes the fetch, the diff, and all of the
cycle's emissions. -/
theorem poll_schedule_first_action (st : DatabasePollerState) (conn : Conn) :
    (poll st conn).actions.head? = some (PollAction.setAlarmIn st.update_interval) := by
  unfold poll
  cases hp : conn.plancache_rows with
  | error e => rfl
  | ok rows =>
    cases hm : conn.total_server_memory with
    | error e => rfl
    | ok v => rfl
